import Mathlib

/-!
# Verification of the langrag document-lifecycle subsystem

Shallow embedding of the document change-classification algorithm, the
metadata stores (JSON and SQLite backed), the per-document ingestion
pipeline of `IngestionService`, and `ChromaVectorStore.document_exists`,
together with theorems settling the spec claims about them.

Conventions of the embedding:
* Python `datetime` values are modelled by their timestamp as an `Int`.
  Wherever a `datetime` is serialized with `isoformat()` and parsed back
  with `datetime.fromisoformat`, the stored ISO-8601 string is modelled by
  the `Int` instant it denotes (the round trip is value-preserving).
* Python's dynamic typing matters in one place: `files_classifier.py` line 51
  applies `datetime.fromisoformat` to a value that is already a `datetime`
  (both store implementations parse `last_modified` before returning
  records).  `PyTimeValue` models the dynamic type of that argument and
  `datetime_fromisoformat` models CPython's behaviour: it raises `TypeError`
  unless the argument is a `str`.
* Python exceptions are modelled with `Except String`; a raised exception is
  `.error msg`.
* Python `dict`s are modelled as ordered association lists with unique keys:
  assignment to a present key updates in place, to a fresh key appends.
* Truthiness tests (`if vector_status:`, `if chunk_count:`) are modelled
  exactly: `None`, `""`, `0` and `[]` are falsy.
-/

/-- `VectorStatus` from `enums.py`: processing state of a document. -/
inductive VectorStatus where
  | pending
  | processing
  | completed
  | failed
  | skipped
deriving DecidableEq, Repr

/-- The `.value` string of each `VectorStatus` member (`enums.py` lines 5-9). -/
def VectorStatus.value : VectorStatus → String
  | .pending => "pending"
  | .processing => "processing"
  | .completed => "completed"
  | .failed => "failed"
  | .skipped => "skipped"

/-- `VectorStatus.from_string` (`enums.py` lines 19-25): parse a status string,
falling back to the default `PENDING` on an unrecognized value. -/
def VectorStatus.from_string (value : String) : VectorStatus :=
  if value = "pending" then .pending
  else if value = "processing" then .processing
  else if value = "completed" then .completed
  else if value = "failed" then .failed
  else if value = "skipped" then .skipped
  else .pending

/-- `DocumentMetadata` from `document_sources/metadata.py`.  `source_type`
holds the `.value` string of the `DocumentSourceType` member.  `last_modified`
is a `datetime` at runtime everywhere in the program (the local-file source
builds it with `datetime.fromtimestamp`, and both stores parse the persisted
ISO string with `datetime.fromisoformat` before constructing records); it is
modelled by its instant as an `Int`. -/
structure DocumentMetadata where
  source_type : String
  source_path : String
  file_name : String
  file_extension : String
  file_size : Nat
  last_modified : Int
  file_hash : String
  chunk_count : Nat
  vector_status : VectorStatus
deriving DecidableEq, Repr

/-- Dynamic type of the argument handed to `datetime.fromisoformat` in the
classifier: either a `str` or an already-parsed `datetime`. -/
inductive PyTimeValue where
  | str (s : String)
  | datetime (t : Int)
deriving DecidableEq, Repr

/-- Parse an ISO timestamp string.  The stored string is modelled by the
instant it denotes, so parsing reads that instant back (`Int` decimal form). -/
def parseIsoString (s : String) : Int :=
  (s.toInt?).getD 0

/-- CPython's `datetime.fromisoformat`: accepts only a `str` argument and
raises `TypeError: fromisoformat: argument must be str` on anything else,
in particular on a `datetime`. -/
def datetime_fromisoformat : PyTimeValue → Except String Int
  | .str s => .ok (parseIsoString s)
  | .datetime _ => .error "fromisoformat: argument must be str"

/-- Python `dict` assignment `m[k] = v` on an ordered association list:
replace the value in place if the key is present, append otherwise. -/
def dictInsert {α : Type} (m : List (String × α)) (k : String) (v : α) :
    List (String × α) :=
  if m.any (fun e => e.1 = k) then
    m.map (fun e => if e.1 = k then (e.1, v) else e)
  else
    m ++ [(k, v)]

/-- Python `dict` lookup `m[k]` / `m.get(k)`. -/
def dictGet? {α : Type} (m : List (String × α)) (k : String) : Option α :=
  (m.find? (fun e => e.1 = k)).map (fun e => e.2)

/-- Key list of a dict, in insertion order. -/
def dictKeys {α : Type} (m : List (String × α)) : List String :=
  m.map (fun e => e.1)

/-- `{doc.source_path: doc for doc in documents}` (`files_classifier.py`
lines 35-36): build a dict keyed by `source_path`; a later document with the
same path overwrites an earlier one. -/
def buildPathMap (documents : List DocumentMetadata) :
    List (String × DocumentMetadata) :=
  documents.foldl (fun m doc => dictInsert m doc.source_path doc) []

/-- Result dictionary of the classifier (`files_classifier.py` line 33). -/
structure ClassifiedDocuments where
  unchanged : List DocumentMetadata
  new : List DocumentMetadata
  updated : List DocumentMetadata
  deleted : List DocumentMetadata
deriving DecidableEq, Repr

/-- One iteration of the loop over `source_path & db_path`
(`files_classifier.py` lines 47-54): parse `db_doc.last_modified` with
`datetime.fromisoformat` — the argument is a `datetime`, since the store's
`load_documents_metadata` built it with `fromisoformat` already
(`sqlite_store.py` line 116, `json_store.py` line 76) — then compare with
strict `>`.  A raised `TypeError` propagates out of the classifier. -/
def classifyCommonPath (source_map db_map : List (String × DocumentMetadata))
    (acc : List DocumentMetadata × List DocumentMetadata) (path : String) :
    Except String (List DocumentMetadata × List DocumentMetadata) :=
  match dictGet? source_map path, dictGet? db_map path with
  | some source_doc, some db_doc =>
    match datetime_fromisoformat (.datetime db_doc.last_modified) with
    | .error e => .error e
    | .ok db_time =>
      if db_time < source_doc.last_modified then
        .ok (acc.1 ++ [source_doc], acc.2)
      else
        .ok (acc.1, acc.2 ++ [source_doc])
  | _, _ => .ok acc

/-- `classifier` (`utils/files_classifier.py` lines 33-56), applied to the
current source listing `documents` and the live store records
`exist_documents` that line 29 loads.  Partitions into new / updated /
unchanged / deleted, except that the common-path loop raises `TypeError`
(because of the `fromisoformat` call on a `datetime`); the error propagates
to the caller. -/
def classifier (documents exist_documents : List DocumentMetadata) :
    Except String ClassifiedDocuments :=
  let source_map := buildPathMap documents
  let db_map := buildPathMap exist_documents
  let source_path := dictKeys source_map
  let db_path := dictKeys db_map
  let new_path := source_path.filter (fun p => ¬ p ∈ db_path)
  let newDocs := new_path.filterMap (fun p => dictGet? source_map p)
  let deleted_path := db_path.filter (fun p => ¬ p ∈ source_path)
  let deletedDocs := deleted_path.filterMap (fun p => dictGet? db_map p)
  let common := source_path.filter (fun p => p ∈ db_path)
  match common.foldlM (classifyCommonPath source_map db_map) ([], []) with
  | .error e => .error e
  | .ok (upd, unch) =>
    .ok { unchanged := unch, new := newDocs, updated := upd, deleted := deletedDocs }

/-- Shorthand for a concrete source/store document in examples. -/
def mkDoc (path : String) (name : String) (ext : String) (mtime : Int)
    (status : VectorStatus := .pending) : DocumentMetadata :=
  { source_type := "local_file"
    source_path := path
    file_name := name
    file_extension := ext
    file_size := 100
    last_modified := mtime
    file_hash := "h-" ++ name
    chunk_count := 0
    vector_status := status }

/-- A value stored under a key of the JSON metadata file, i.e. the dict
produced by `JsonMetadataStore._to_dict` (`json_store.py` lines 51-66).
`last_modified`, `created_at` and `updated_at` are persisted as ISO strings
and modelled by the instants those strings denote.  `is_deleted` is the
Python int `0` or `1`. -/
structure JsonItem where
  file_hash : String
  source_type : String
  source_path : String
  file_name : String
  file_extension : String
  file_size : Nat
  last_modified : Int
  chunk_count : Nat
  vector_status : String
  vector_error : String
  created_at : Int
  updated_at : Int
  is_deleted : Nat
deriving DecidableEq, Repr

/-- The JSON metadata file contents: a dict
`{ "source_type:source_path": item }`, modelled as an ordered association
list with unique keys. -/
abbrev JsonState : Type := List (String × JsonItem)

/-- `JsonMetadataStore._make_key` (`json_store.py` lines 48-49). -/
def make_key (doc : DocumentMetadata) : String :=
  doc.source_type ++ ":" ++ doc.source_path

/-- `JsonMetadataStore._to_dict` (`json_store.py` lines 51-66) at wall-clock
instant `now`.  `DocumentMetadata` has no `vector_error`, `created_at` or
`is_deleted` attribute, so the `getattr` defaults apply: `""`,
`datetime.now().isoformat()` and `0`. -/
def json_to_dict (doc : DocumentMetadata) (now : Int) : JsonItem :=
  { file_hash := doc.file_hash
    source_type := doc.source_type
    source_path := doc.source_path
    file_name := doc.file_name
    file_extension := doc.file_extension
    file_size := doc.file_size
    last_modified := doc.last_modified
    chunk_count := doc.chunk_count
    vector_status := doc.vector_status.value
    vector_error := ""
    created_at := now
    updated_at := now
    is_deleted := 0 }

/-- `JsonMetadataStore._from_dict` (`json_store.py` lines 68-79): rebuild a
`DocumentMetadata`, parsing `last_modified` back into a `datetime`. -/
def json_from_dict (item : JsonItem) : DocumentMetadata :=
  { file_hash := item.file_hash
    source_type := item.source_type
    source_path := item.source_path
    file_name := item.file_name
    file_extension := item.file_extension
    file_size := item.file_size
    last_modified := item.last_modified
    chunk_count := item.chunk_count
    vector_status := VectorStatus.from_string item.vector_status }

/-- `JsonMetadataStore.save_documents_metadata` (`json_store.py` lines
81-87): read the file, set `data[key] = _to_dict(doc)` for every document,
write the file back. -/
def json_save_documents_metadata (data : JsonState) (documents : List DocumentMetadata)
    (now : Int) : JsonState :=
  documents.foldl (fun data doc => dictInsert data (make_key doc) (json_to_dict doc now)) data

/-- The `vector_status` argument of `load_documents_metadata` as the callers
pass it at runtime: `None`, a `str`, or — as `IngestionService` does — a
`VectorStatus` enum member. -/
inductive StatusFilter where
  | str (s : String)
  | enum (v : VectorStatus)
deriving DecidableEq, Repr

/-- Python truthiness of the optional `vector_status` argument: `None` and
`""` are falsy; a non-empty string or any enum member is truthy. -/
def statusFilterTruthy : Option StatusFilter → Bool
  | none => false
  | some (.str s) => ¬ s.isEmpty
  | some (.enum _) => true

/-- The comparison `item["vector_status"] != vector_status`
(`json_store.py` line 100).  The stored value is a `str`; a member of the
plain `Enum` `VectorStatus` is never equal to any `str`, so with an enum
filter the test is always true. -/
def statusFilterNe (stored : String) : Option StatusFilter → Bool
  | none => true
  | some (.str s) => stored ≠ s
  | some (.enum _) => true

/-- Python truthiness of the optional `source_type` string argument. -/
def strOptTruthy : Option String → Bool
  | none => false
  | some s => ¬ s.isEmpty

/-- Python truthiness of the optional `supported_extensions` list argument. -/
def listOptTruthy : Option (List String) → Bool
  | none => false
  | some l => ¬ l.isEmpty

/-- `JsonMetadataStore.load_documents_metadata` (`json_store.py` lines
89-111): keep items that are not soft-deleted and pass every truthy filter,
rebuilding `DocumentMetadata` values in file order. -/
def json_load_documents_metadata (data : JsonState)
    (vector_status : Option StatusFilter := none)
    (supported_extensions : Option (List String) := none)
    (source_type : Option String := none) : List DocumentMetadata :=
  data.filterMap (fun e =>
    let item := e.2
    if item.is_deleted ≠ 0 then none
    else if statusFilterTruthy vector_status ∧ statusFilterNe item.vector_status vector_status then none
    else if strOptTruthy source_type ∧ item.source_type ≠ source_type.getD "" then none
    else if listOptTruthy supported_extensions ∧
        ¬ item.file_extension ∈ supported_extensions.getD [] then none
    else some (json_from_dict item))

/-- `JsonMetadataStore.update_document_processing_status` (`json_store.py`
lines 115-136): if the key is present, set `vector_status`, `vector_error`,
`chunk_count` (only when the argument `is not None`) and `updated_at` on
that item and write the file; otherwise log a warning and leave the file
untouched. -/
def json_update_document_processing_status (data : JsonState)
    (document : DocumentMetadata) (vector_status : VectorStatus)
    (vector_error : String) (chunk_count : Option Nat) (now : Int) : JsonState :=
  if data.any (fun e => e.1 = make_key document) then
    data.map (fun e =>
      if e.1 = make_key document then
        (e.1, { e.2 with
                  vector_status := vector_status.value
                  vector_error := vector_error
                  chunk_count := match chunk_count with
                    | some c => c
                    | none => e.2.chunk_count
                  updated_at := now })
      else e)
  else data

/-- `JsonMetadataStore.delete_documents_metadata` (`json_store.py` lines
138-146): for every document whose key is present, set `is_deleted = 1` and
`updated_at = now`; write the file back. -/
def json_delete_documents_metadata (data : JsonState)
    (documents : List DocumentMetadata) (now : Int) : JsonState :=
  documents.foldl (fun data doc =>
    if data.any (fun e => e.1 = make_key doc) then
      data.map (fun e =>
        if e.1 = make_key doc then (e.1, { e.2 with is_deleted := 1, updated_at := now }) else e)
    else data) data

/-- One row of the `documents` table created by `run_migrations.py`:
columns in declaration order, with `last_modified` a TEXT ISO string
(modelled by its instant), `created_at`/`updated_at` timestamps and the
`is_deleted` flag stored as `0`/`1`. -/
structure SqliteRow where
  file_hash : String
  source_type : String
  source_path : String
  file_name : String
  file_extension : String
  file_size : Nat
  last_modified : Int
  chunk_count : Nat
  vector_status : String
  vector_error : String
  created_at : Int
  updated_at : Int
  is_deleted : Nat
deriving DecidableEq, Repr

/-- The `documents` table.  `PRIMARY KEY (source_path, source_type)`
guarantees at most one row per key; the operations below preserve that. -/
abbrev SqliteTable : Type := List SqliteRow

/-- Whether a row matches the identity key of a document
(`WHERE source_type = ? AND source_path = ?`, and the upsert's
`ON CONFLICT(source_path, source_type)`). -/
def rowMatchesKey (row : SqliteRow) (doc : DocumentMetadata) : Bool :=
  row.source_type = doc.source_type ∧ row.source_path = doc.source_path

/-- The `INSERT ... ON CONFLICT(source_path, source_type) DO UPDATE` of
`SQLiteMetadataStore.save_documents_metadata` (`sqlite_store.py` lines
49-77) for a single document: on conflict overwrite `file_hash`,
`file_size`, `last_modified`, set `chunk_count = 0`,
`updated_at = CURRENT_TIMESTAMP`, `vector_status = excluded.vector_status`
and `is_deleted = 0` (leaving `file_name`, `file_extension`,
`vector_error` and `created_at` untouched); otherwise insert a fresh row
with the declared column defaults. -/
def sqlite_upsert_one (tbl : SqliteTable) (doc : DocumentMetadata) (now : Int) :
    SqliteTable :=
  if tbl.any (fun row => rowMatchesKey row doc) then
    tbl.map (fun row =>
      if rowMatchesKey row doc then
        { row with
            file_hash := doc.file_hash
            file_size := doc.file_size
            last_modified := doc.last_modified
            chunk_count := 0
            updated_at := now
            vector_status := doc.vector_status.value
            is_deleted := 0 }
      else row)
  else
    tbl ++ [{ file_hash := doc.file_hash
              source_type := doc.source_type
              source_path := doc.source_path
              file_name := doc.file_name
              file_extension := doc.file_extension
              file_size := doc.file_size
              last_modified := doc.last_modified
              chunk_count := doc.chunk_count
              vector_status := doc.vector_status.value
              vector_error := ""
              created_at := now
              updated_at := now
              is_deleted := 0 }]

/-- `SQLiteMetadataStore.save_documents_metadata` (`sqlite_store.py` lines
38-81): upsert each document in turn inside one transaction. -/
def sqlite_save_documents_metadata (tbl : SqliteTable)
    (documents : List DocumentMetadata) (now : Int) : SqliteTable :=
  documents.foldl (fun tbl doc => sqlite_upsert_one tbl doc now) tbl

/-- The WHERE clause assembled by
`SQLiteMetadataStore._build_filter_conditions` (`sqlite_store.py` lines
143-165): always `is_deleted = 0`, plus `vector_status = ?`,
`source_type = ?` and `file_extension in (...)` for each truthy filter.
The `vector_status` parameter is the TEXT value bound into the query. -/
def sqliteRowPassesFilters (row : SqliteRow) (vector_status : Option String)
    (source_type : Option String) (supported_extensions : Option (List String)) :
    Bool :=
  row.is_deleted = 0 ∧
  (strOptTruthy vector_status → row.vector_status = vector_status.getD "") ∧
  (strOptTruthy source_type → row.source_type = source_type.getD "") ∧
  (listOptTruthy supported_extensions →
    row.file_extension ∈ supported_extensions.getD [])

/-- `SQLiteMetadataStore.load_documents_metadata` (`sqlite_store.py` lines
83-123): select the rows passing the assembled conditions and rebuild
`DocumentMetadata` values, parsing `last_modified` back into a `datetime`
and `vector_status` through `VectorStatus.from_string`. -/
def sqlite_load_documents_metadata (tbl : SqliteTable)
    (supported_extensions : Option (List String) := none)
    (source_type : Option String := none)
    (vector_status : Option String := none) : List DocumentMetadata :=
  (tbl.filter (fun row =>
      sqliteRowPassesFilters row vector_status source_type supported_extensions)).map
    (fun row =>
      { chunk_count := row.chunk_count
        file_extension := row.file_extension
        file_hash := row.file_hash
        file_name := row.file_name
        file_size := row.file_size
        last_modified := row.last_modified
        source_path := row.source_path
        source_type := row.source_type
        vector_status := VectorStatus.from_string row.vector_status })

/-- `SQLiteMetadataStore.delete_documents_metadata` (`sqlite_store.py` lines
125-141): `UPDATE documents SET is_deleted = 1, updated_at =
CURRENT_TIMESTAMP WHERE source_type = ? AND source_path = ?` for each
document; a key that matches no row updates nothing. -/
def sqlite_delete_documents_metadata (tbl : SqliteTable)
    (documents : List DocumentMetadata) (now : Int) : SqliteTable :=
  documents.foldl (fun tbl doc =>
    tbl.map (fun row =>
      if rowMatchesKey row doc then { row with is_deleted := 1, updated_at := now }
      else row)) tbl

/-- Python truthiness of the optional `chunk_count` argument:
`if chunk_count:` is false for `None` and for `0`. -/
def chunkCountTruthy : Option Nat → Bool
  | none => false
  | some c => c ≠ 0

/-- `SQLiteMetadataStore.update_document_processing_status`
(`sqlite_store.py` lines 170-212): one UPDATE touching `vector_status`,
`vector_error`, `updated_at` and — only when `if chunk_count:` is truthy,
i.e. the argument is neither `None` nor `0` — `chunk_count`, on the rows
matching the document's key; a key that matches no row updates nothing and
raises nothing. -/
def sqlite_update_document_processing_status (tbl : SqliteTable)
    (document : DocumentMetadata) (vector_status : VectorStatus)
    (vector_error : String) (chunk_count : Option Nat) (now : Int) : SqliteTable :=
  if chunkCountTruthy chunk_count then
    tbl.map (fun row =>
      if rowMatchesKey row document then
        { row with
            vector_status := vector_status.value
            vector_error := vector_error
            chunk_count := chunk_count.getD 0
            updated_at := now }
      else row)
  else
    tbl.map (fun row =>
      if rowMatchesKey row document then
        { row with
            vector_status := vector_status.value
            vector_error := vector_error
            updated_at := now }
      else row)

/-- A LangChain `Document` as produced by the parsers and chunker: its text
and the `source` metadata entry (which the parsers set to the file path). -/
structure Chunk where
  source : String
  text : String
deriving DecidableEq, Repr

/-- A registered parser (`parsers/base.py`): what matters to the pipeline is
its class-level `supported_extensions` list. -/
structure Parser where
  supported_extensions : List String
deriving DecidableEq, Repr

/-- Python `str.lower()` for a single character: ASCII letters are mapped to
their lowercase counterpart (sufficient for the extension strings compared
here). -/
def charLower (c : Char) : Char :=
  if 65 ≤ c.toNat ∧ c.toNat ≤ 90 then Char.ofNat (c.toNat + 32) else c

/-- Python `str.lower()`, applied character-wise. -/
def pyLower (s : String) : String :=
  ⟨s.data.map charLower⟩

/-- `Parser.is_applieble` (`parsers/base.py` lines 32-44): case-insensitive
membership of the document's extension in the parser's list. -/
def parser_is_applieble (p : Parser) (metadata : DocumentMetadata) : Bool :=
  pyLower metadata.file_extension ∈ p.supported_extensions.map (fun ext => pyLower ext)

/-- `ParserProvider.get_parser` (`parsers/base.py` lines 73-86):
first-match-wins over the registered list, `None` when no parser applies. -/
def getParser (parsers : List Parser) (metadata : DocumentMetadata) : Option Parser :=
  parsers.find? (fun p => parser_is_applieble p metadata)

/-- Contents of the vector store: the chunk vectors it currently holds. -/
abbrev VecState : Type := List Chunk

/-- Behaviour of the collaborators `IngestionService._process_single_document`
calls out to.  A call that can raise is modelled with `Except String` /
an `Option String` error component; stateful vector-store calls also return
the vector-store contents they leave behind (so a failing call may leave a
partial effect). -/
structure IngestEnv where
  pathExists : String → Bool
  parsers : List Parser
  parseDoc : Parser → DocumentMetadata → Except String (List Chunk)
  chunk_documents : List Chunk → List Chunk
  document_exists : String → Except String Bool
  delete_vectors_by_source : String → VecState → Option String × VecState
  add_documents : List Chunk → VecState → Option String × VecState

/-- `IngestionService._process_single_document` (`ingestion_service.py` lines
116-205) against the JSON metadata store that `run_ingestion.py` wires in:
mark PROCESSING; fail early on a missing file, a missing parser or zero
chunks; otherwise check/delete stale vectors and add the new chunks; any
exception raised on the way is caught at the per-document boundary (lines
198-205) and persisted as FAILED with
`"Failed to process {file_name}: {e}"`.  Returns the metadata-store and
vector-store states left behind. -/
def processSingleDocument (env : IngestEnv) (doc : DocumentMetadata)
    (ms : JsonState) (vs : VecState) (now : Int) : JsonState × VecState :=
  let ms := json_update_document_processing_status ms doc .processing "" none now
  if ¬ env.pathExists doc.source_path then
    (json_update_document_processing_status ms doc .failed
      ("File does not exist: " ++ doc.source_path) none now, vs)
  else
    match getParser env.parsers doc with
    | none =>
      (json_update_document_processing_status ms doc .failed
        ("No parser available for " ++ doc.file_name) none now, vs)
    | some parser =>
      match env.parseDoc parser doc with
      | .error e =>
        (json_update_document_processing_status ms doc .failed
          ("Failed to process " ++ doc.file_name ++ ": " ++ e) none now, vs)
      | .ok parsed_content =>
        let chunk_docs := env.chunk_documents parsed_content
        if chunk_docs.isEmpty then
          (json_update_document_processing_status ms doc .failed
            ("Document " ++ doc.source_path ++ " contains no extractable text") none now, vs)
        else
          match env.document_exists doc.source_path with
          | .error e =>
            (json_update_document_processing_status ms doc .failed
              ("Failed to process " ++ doc.file_name ++ ": " ++ e) none now, vs)
          | .ok existsFlag =>
            match (if existsFlag then
                     env.delete_vectors_by_source doc.source_path vs
                   else (none, vs)) with
            | (some e, vs₁) =>
              (json_update_document_processing_status ms doc .failed
                ("Failed to process " ++ doc.file_name ++ ": " ++ e) none now, vs₁)
            | (none, vs₁) =>
              match env.add_documents chunk_docs vs₁ with
              | (some e, vs₂) =>
                (json_update_document_processing_status ms doc .failed
                  ("Failed to process " ++ doc.file_name ++ ": " ++ e) none now, vs₂)
              | (none, vs₂) =>
                (json_update_document_processing_status ms doc .completed
                  "" (some chunk_docs.length) now, vs₂)

/-- The loop of `IngestionService.process_pending_documents`
(`ingestion_service.py` lines 113-114): process each document of the batch
sequentially; `_process_single_document` never raises, so the loop always
reaches every document. -/
def processDocuments (env : IngestEnv) (docs : List DocumentMetadata)
    (ms : JsonState) (vs : VecState) (now : Int) : JsonState × VecState :=
  docs.foldl (fun st doc => processSingleDocument env doc st.1 st.2 now) (ms, vs)

/-- Status stored for a document's key in the JSON metadata store. -/
def statusOf (ms : JsonState) (doc : DocumentMetadata) : Option String :=
  (dictGet? ms (make_key doc)).map (fun item => item.vector_status)

/-- Error text stored for a document's key in the JSON metadata store. -/
def errorOf (ms : JsonState) (doc : DocumentMetadata) : Option String :=
  (dictGet? ms (make_key doc)).map (fun item => item.vector_error)

/-- Chunk count stored for a document's key in the JSON metadata store. -/
def chunkCountOf (ms : JsonState) (doc : DocumentMetadata) : Option Nat :=
  (dictGet? ms (make_key doc)).map (fun item => item.chunk_count)

/-- The underlying similarity search `ChromaVectorStore.document_exists`
issues: arguments are the query text, `k` and the `source` filter; it can
raise. -/
structure ChromaEnv where
  similarity_search : String → Nat → String → Except String (List Chunk)

/-- `ChromaVectorStore.document_exists` (`chroma_store.py` lines 99-121):
raise `VectorStoreError` when the store is not initialized; otherwise run
`similarity_search(query="", k=1, filter={"source": source_path})`, return
whether it found anything, and swallow any exception it raises by
returning `False`. -/
def chroma_document_exists (env : ChromaEnv) (initialized : Bool)
    (source_path : String) : Except String Bool :=
  if ¬ initialized then .error "ChromaVectorStore is not initialized"
  else
    match env.similarity_search "" 1 source_path with
    | .ok results => .ok (decide (results.length > 0))
    | .error _ => .ok false

/-- Concrete JSON metadata store holding exactly one live record with
`vector_status = "pending"`: the store left behind by saving one freshly
discovered document. -/
def pendingStore : JsonState :=
  json_save_documents_metadata [] [mkDoc "/docs/p.txt" "p.txt" ".txt" 3] 0

/-- Collaborator behaviour for concrete pipeline runs: the file exists, the
single registered parser handles `.pdf`, parsing and chunking succeed, the
vector store is empty and accepts writes. -/
def happyEnv : IngestEnv :=
  { pathExists := fun _ => true
    parsers := [{ supported_extensions := [".pdf"] }]
    parseDoc := fun _ doc => .ok [{ source := doc.source_path, text := "some text" }]
    chunk_documents := fun cs => cs
    document_exists := fun _ => .ok false
    delete_vectors_by_source := fun _ vs => (none, vs)
    add_documents := fun cs vs => (none, vs ++ cs) }

theorem find?_map_keyfix {α : Type} (m : List (String × α)) (k k' : String) (g : α → α) :
    List.find? (fun e => e.1 = k') (m.map (fun e => if e.1 = k then (e.1, g e.2) else e))
      = (List.find? (fun e => e.1 = k') m).map (fun e => if e.1 = k then (e.1, g e.2) else e) := by
  induction m with
  | nil => rfl
  | cons e m ih =>
    have hkey : ((if e.1 = k then (e.1, g e.2) else e).1) = e.1 := by
      by_cases h : e.1 = k <;> simp [h]
    by_cases h' : e.1 = k'
    · have hd : decide (e.1 = k') = true := by simp [h']
      simp only [List.map_cons, List.find?_cons, hkey, hd]
      rfl
    · have hd : decide (e.1 = k') = false := by simp [h']
      simp only [List.map_cons, List.find?_cons, hkey, hd]
      exact ih

theorem dictGet?_mapValue_same {α : Type} (m : List (String × α)) (k : String) (g : α → α) :
    dictGet? (m.map (fun e => if e.1 = k then (e.1, g e.2) else e)) k
      = (dictGet? m k).map g := by
  unfold dictGet?
  rw [find?_map_keyfix]
  cases hf : List.find? (fun e => e.1 = k) m with
  | none => rfl
  | some e =>
    have he : e.1 = k := by simpa using List.find?_some hf
    simp [he]

theorem dictGet?_mapValue_other {α : Type} (m : List (String × α)) (k k' : String)
    (g : α → α) (h : k' ≠ k) :
    dictGet? (m.map (fun e => if e.1 = k then (e.1, g e.2) else e)) k' = dictGet? m k' := by
  unfold dictGet?
  rw [find?_map_keyfix]
  cases hf : List.find? (fun e => e.1 = k') m with
  | none => rfl
  | some e =>
    have he : e.1 = k' := by simpa using List.find?_some hf
    have hne : ¬ (e.1 = k) := by
      rw [he]
      exact h
    simp [hne]

theorem dictGet?_none_of_any_false {α : Type} (m : List (String × α)) (k : String)
    (h : m.any (fun e => e.1 = k) = false) : dictGet? m k = none := by
  induction m with
  | nil => rfl
  | cons e m ih =>
    simp only [List.any_cons, Bool.or_eq_false_iff] at h
    have he : ¬ (e.1 = k) := by simpa using h.1
    simpa [dictGet?, List.find?_cons, he] using ih h.2

theorem any_true_of_dictGet?_some {α : Type} (m : List (String × α)) (k : String) (v : α)
    (h : dictGet? m k = some v) : m.any (fun e => e.1 = k) = true := by
  cases hany : m.any (fun e => e.1 = k) with
  | false =>
    rw [dictGet?_none_of_any_false m k hany] at h
    exact Option.noConfusion h
  | true => rfl

theorem dictGet?_isSome_of_any_true {α : Type} (m : List (String × α)) (k : String)
    (h : m.any (fun e => e.1 = k) = true) : (dictGet? m k).isSome = true := by
  induction m with
  | nil => simp at h
  | cons e m ih =>
    by_cases he : e.1 = k
    · simp [dictGet?, List.find?_cons, he]
    · simp only [List.any_cons, Bool.or_eq_true] at h
      rcases h with h | h
    
      · exact absurd (by simpa using h) he
      · simpa [dictGet?, List.find?_cons, he] using ih h

theorem dictGet?_append_single {α : Type} (m : List (String × α)) (k k' : String) (v : α) :
    dictGet? (m ++ [(k, v)]) k'
      = (dictGet? m k').orElse (fun _ => if k' = k then some v else none) := by
  induction m with
  | nil =>
    by_cases h : k' = k
    · simp [dictGet?, List.find?_cons, h]
    · simp [dictGet?, List.find?_cons, h, Ne.symm h]
  | cons e m ih =>
    by_cases he : e.1 = k'
    · simp [dictGet?, List.find?_cons, he]
    · simpa [dictGet?, List.find?_cons, he] using ih

theorem dictGet?_dictInsert_same {α : Type} (m : List (String × α)) (k : String) (v : α) :
    dictGet? (dictInsert m k v) k = some v := by
  unfold dictInsert
  by_cases h : m.any (fun e => e.1 = k) = true
  · rw [if_pos h, dictGet?_mapValue_same m k (fun _ => v)]
    cases hf : dictGet? m k with
    | none =>
      have := dictGet?_isSome_of_any_true m k h
      rw [hf] at this
      simp at this
    | some w => simp
  · rw [if_neg h, dictGet?_append_single]
    cases hf : dictGet? m k with
    | none => simp
    | some w => exact absurd (any_true_of_dictGet?_some m k w hf) h

theorem dictGet?_dictInsert_other {α : Type} (m : List (String × α)) (k k' : String)
    (v : α) (h : k' ≠ k) :
    dictGet? (dictInsert m k v) k' = dictGet? m k' := by
  unfold dictInsert
  by_cases hany : m.any (fun e => e.1 = k) = true
  · rw [if_pos hany]
    exact dictGet?_mapValue_other m k k' (fun _ => v) h
  · rw [if_neg hany, dictGet?_append_single]
    cases hf : dictGet? m k' with
    | none => simp [h]
    | some w => simp

theorem json_update_dictGet?_present (ms : JsonState) (doc : DocumentMetadata)
    (st : VectorStatus) (err : String) (cc : Option Nat) (now : Int) (item : JsonItem)
    (h : dictGet? ms (make_key doc) = some item) :
    dictGet? (json_update_document_processing_status ms doc st err cc now) (make_key doc)
      = some { item with
                 vector_status := st.value
                 vector_error := err
                 chunk_count := match cc with
                   | some c => c
                   | none => item.chunk_count
                 updated_at := now } := by
  unfold json_update_document_processing_status
  rw [if_pos (any_true_of_dictGet?_some _ _ _ h)]
  rw [dictGet?_mapValue_same ms (make_key doc)
    (fun v => { v with
                  vector_status := st.value
                  vector_error := err
                  chunk_count := match cc with
                    | some c => c
                    | none => v.chunk_count
                  updated_at := now })]
  rw [h]
  rfl

theorem json_update_dictGet?_absent (ms : JsonState) (doc : DocumentMetadata)
    (st : VectorStatus) (err : String) (cc : Option Nat) (now : Int)
    (h : dictGet? ms (make_key doc) = none) :
    json_update_document_processing_status ms doc st err cc now = ms := by
  unfold json_update_document_processing_status
  cases hany : ms.any (fun e => e.1 = make_key doc) with
  | false => rw [if_neg (by simp [hany])]
  | true =>
    have := dictGet?_isSome_of_any_true ms (make_key doc) hany
    rw [h] at this
    simp at this

theorem json_update_dictGet?_other (ms : JsonState) (doc : DocumentMetadata)
    (st : VectorStatus) (err : String) (cc : Option Nat) (now : Int) (k' : String)
    (h : k' ≠ make_key doc) :
    dictGet? (json_update_document_processing_status ms doc st err cc now) k'
      = dictGet? ms k' := by
  unfold json_update_document_processing_status
  cases hany : ms.any (fun e => e.1 = make_key doc) with
  | false => rw [if_neg (by simp [hany])]
  | true =>
    rw [if_pos rfl]
    exact dictGet?_mapValue_other ms (make_key doc) k'
      (fun v => { v with
                    vector_status := st.value
                    vector_error := err
                    chunk_count := match cc with
                      | some c => c
                      | none => v.chunk_count
                    updated_at := now }) h

theorem json_delete_singleton (ms : JsonState) (d : DocumentMetadata) (t : Int) :
    json_delete_documents_metadata ms [d] t
      = if ms.any (fun e => e.1 = make_key d) then
          ms.map (fun e =>
            if e.1 = make_key d then (e.1, { e.2 with is_deleted := 1, updated_at := t })
            else e)
        else ms := rfl

theorem any_map_keyfix {α : Type} (m : List (String × α)) (k k' : String) (g : α → α) :
    (m.map (fun e => if e.1 = k then (e.1, g e.2) else e)).any (fun e => e.1 = k')
      = m.any (fun e => e.1 = k') := by
  induction m with
  | nil => rfl
  | cons e m ih =>
    have hkey : ((if e.1 = k then (e.1, g e.2) else e).1) = e.1 := by
      by_cases h : e.1 = k <;> simp [h]
    simp only [List.map_cons, List.any_cons, hkey, ih]

theorem bool_eq_false_of_not_true {b : Bool} (h : ¬ b = true) : b = false := by
  cases b
  · rfl
  · exact absurd rfl h

theorem json_delete_dictGet?_key (ms : JsonState) (d : DocumentMetadata) (t : Int) :
    dictGet? (json_delete_documents_metadata ms [d] t) (make_key d)
      = (dictGet? ms (make_key d)).map
          (fun item => { item with is_deleted := 1, updated_at := t }) := by
  rw [json_delete_singleton]
  by_cases h : ms.any (fun e => e.1 = make_key d) = true
  · rw [if_pos h]
    exact dictGet?_mapValue_same ms (make_key d) (fun item => { item with is_deleted := 1, updated_at := t })
  · rw [if_neg h]
    rw [dictGet?_none_of_any_false ms (make_key d) (bool_eq_false_of_not_true h)]
    rfl

theorem json_delete_dictGet?_other (ms : JsonState) (d : DocumentMetadata) (t : Int)
    (k' : String) (h : k' ≠ make_key d) :
    dictGet? (json_delete_documents_metadata ms [d] t) k' = dictGet? ms k' := by
  rw [json_delete_singleton]
  by_cases hany : ms.any (fun e => e.1 = make_key d) = true
  · rw [if_pos hany]
    exact dictGet?_mapValue_other ms (make_key d) k'
      (fun item => { item with is_deleted := 1, updated_at := t }) h
  · rw [if_neg hany]

theorem json_delete_absorb (ms : JsonState) (d : DocumentMetadata) (t₁ t₂ : Int) :
    json_delete_documents_metadata (json_delete_documents_metadata ms [d] t₁) [d] t₂
      = json_delete_documents_metadata ms [d] t₂ := by
  by_cases h : ms.any (fun e => e.1 = make_key d) = true
  · have h₂ : ((ms.map (fun e =>
        if e.1 = make_key d then (e.1, { e.2 with is_deleted := 1, updated_at := t₁ })
        else e)).any (fun e => e.1 = make_key d)) = true :=
      (any_map_keyfix ms (make_key d) (make_key d)
        (fun item => { item with is_deleted := 1, updated_at := t₁ })).trans h
    rw [json_delete_singleton ms d t₁, if_pos h, json_delete_singleton _ d t₂,
        if_pos h₂, json_delete_singleton ms d t₂, if_pos h, List.map_map]
    apply List.map_congr_left
    intro e _
    by_cases he : e.1 = make_key d <;> simp [he]
  · rw [json_delete_singleton ms d t₁, if_neg h]

theorem str_append_ne_left (a b : String) (h : a ≠ "") : a ++ b ≠ "" := by
  intro hc
  apply h
  have hlen := congrArg String.length hc
  rw [String.length_append] at hlen
  have h0 : String.length "" = 0 := rfl
  rw [h0] at hlen
  have ha : a.length = 0 := Nat.eq_zero_of_add_eq_zero_right hlen
  cases a with
  | mk data =>
    cases data with
    | nil => rfl
    | cons c cs => simp [String.length] at ha

theorem json_two_updates_fields (ms : JsonState) (doc : DocumentMetadata)
    (st₁ : VectorStatus) (err₁ : String) (st₂ : VectorStatus) (err₂ : String)
    (cc₂ : Option Nat) (now : Int) (item : JsonItem)
    (h : dictGet? ms (make_key doc) = some item) :
    statusOf (json_update_document_processing_status
        (json_update_document_processing_status ms doc st₁ err₁ none now)
        doc st₂ err₂ cc₂ now) doc = some st₂.value
    ∧ errorOf (json_update_document_processing_status
        (json_update_document_processing_status ms doc st₁ err₁ none now)
        doc st₂ err₂ cc₂ now) doc = some err₂
    ∧ chunkCountOf (json_update_document_processing_status
        (json_update_document_processing_status ms doc st₁ err₁ none now)
        doc st₂ err₂ cc₂ now) doc
        = some (match cc₂ with | some c => c | none => item.chunk_count) := by
  have h₁ := json_update_dictGet?_present ms doc st₁ err₁ none now item h
  have h₂ := json_update_dictGet?_present _ doc st₂ err₂ cc₂ now _ h₁
  refine ⟨?_, ?_, ?_⟩ <;> simp [statusOf, errorOf, chunkCountOf, h₂]

/-- Claim C1 (refuted as stated, spec intent is right): on the spec's own
scenario — source lists `a.pdf` (mtime 10) and `b.pdf` (mtime 5), the store
holds live records for `a.pdf` (mtime 5) and `c.pdf` (mtime 1) — the
classifier returns no partition at all: it raises
`TypeError: fromisoformat: argument must be str`, because line 51 of
`files_classifier.py` feeds the already-parsed `datetime`
`db_doc.last_modified` to `datetime.fromisoformat`.  Whenever source and
store share at least one `source_path` the classifier crashes instead of
partitioning. -/
theorem classifier_crashes_instead_of_partitioning :
    classifier
      [mkDoc "/docs/a.pdf" "a.pdf" ".pdf" 10, mkDoc "/docs/b.pdf" "b.pdf" ".pdf" 5]
      [mkDoc "/docs/a.pdf" "a.pdf" ".pdf" 5, mkDoc "/docs/c.pdf" "c.pdf" ".pdf" 1]
      = .error "fromisoformat: argument must be str" := rfl

/-- Claim C2 (refuted as stated, spec intent is right): for a key present in
both the source listing and the store's live records — here `d.txt` with
equal timestamps on both sides, which the claim says must classify as
`unchanged` — the classifier never reaches the `>` comparison: it raises
`TypeError: fromisoformat: argument must be str` at the
`datetime.fromisoformat(db_doc.last_modified)` call, since the loaded
record's `last_modified` is already a `datetime`. -/
theorem classifier_crashes_before_timestamp_comparison :
    classifier [mkDoc "/docs/d.txt" "d.txt" ".txt" 7] [mkDoc "/docs/d.txt" "d.txt" ".txt" 7]
      = .error "fromisoformat: argument must be str" := rfl

/-- Claim C5 (refuted as stated, spec intent is right): the orchestrator
(`ingestion_service.py` lines 103-105) passes the plain-`Enum` member
`VectorStatus.PENDING` as the `vector_status` filter, but the JSON store —
the one `run_ingestion.py` wires in — compares it against the stored
*string* `"pending"`; a plain `Enum` member never equals a `str`, so the
query returns the empty list although a live PENDING record exists.  The
same store state filtered with the string `"pending"`, or with no filter,
does return that record, which shows the record is live and pending and the
AND-filter semantics themselves are what the slip defeats. -/
theorem json_load_enum_pending_filter_returns_empty :
    json_load_documents_metadata pendingStore (some (.enum .pending)) none none = []
    ∧ json_load_documents_metadata pendingStore (some (.str "pending")) none none
        = [json_from_dict (json_to_dict (mkDoc "/docs/p.txt" "p.txt" ".txt" 3) 0)]
    ∧ json_load_documents_metadata pendingStore none none none
        = [json_from_dict (json_to_dict (mkDoc "/docs/p.txt" "p.txt" ".txt" 3) 0)] :=
  ⟨rfl, rfl, rfl⟩

/-- Claim C6 (counterexample): a pending document with extension `.xyz`,
which no registered parser supports, ends the pipeline with persisted
status `"failed"` (error `"No parser available for x.xyz"`), not
`"skipped"`: `_process_single_document` (`ingestion_service.py` lines
140-149) writes `VectorStatus.FAILED` in the no-parser branch, and nothing
in the pipeline ever assigns `SKIPPED`. -/
theorem no_parser_ends_failed_not_skipped :
    statusOf (processSingleDocument happyEnv (mkDoc "/docs/x.xyz" "x.xyz" ".xyz" 4)
        (json_save_documents_metadata [] [mkDoc "/docs/x.xyz" "x.xyz" ".xyz" 4] 0) [] 1).1
        (mkDoc "/docs/x.xyz" "x.xyz" ".xyz" 4)
      ≠ some "skipped"
    ∧ statusOf (processSingleDocument happyEnv (mkDoc "/docs/x.xyz" "x.xyz" ".xyz" 4)
        (json_save_documents_metadata [] [mkDoc "/docs/x.xyz" "x.xyz" ".xyz" 4] 0) [] 1).1
        (mkDoc "/docs/x.xyz" "x.xyz" ".xyz" 4)
      = some "failed" := by
  refine ⟨by decide, by decide⟩

/-- Claim C6 (amended): for every pending document that is still readable but
whose extension no registered parser supports, `_process_single_document`
persists the terminal status FAILED with error
`"No parser available for {file_name}"` and stops there: the vector store is
untouched and the record's chunk count is untouched.  `SKIPPED` is declared
in the `VectorStatus` enum but never assigned by the pipeline. -/
theorem no_parser_ends_failed_and_stops (env : IngestEnv) (doc : DocumentMetadata)
    (ms : JsonState) (vs : VecState) (now : Int) (item : JsonItem)
    (hkey : dictGet? ms (make_key doc) = some item)
    (hpath : env.pathExists doc.source_path = true)
    (hparser : getParser env.parsers doc = none) :
    statusOf (processSingleDocument env doc ms vs now).1 doc = some "failed"
    ∧ errorOf (processSingleDocument env doc ms vs now).1 doc
        = some ("No parser available for " ++ doc.file_name)
    ∧ (processSingleDocument env doc ms vs now).2 = vs
    ∧ chunkCountOf (processSingleDocument env doc ms vs now).1 doc = some item.chunk_count := by
  have hred : processSingleDocument env doc ms vs now
      = (json_update_document_processing_status
          (json_update_document_processing_status ms doc .processing "" none now)
          doc .failed ("No parser available for " ++ doc.file_name) none now, vs) := by
    unfold processSingleDocument
    rw [hpath, hparser]
    simp
  rw [hred]
  obtain ⟨h1, h2, h3⟩ := json_two_updates_fields ms doc .processing ""
    .failed ("No parser available for " ++ doc.file_name) none now item hkey
  exact ⟨h1, h2, rfl, h3⟩

/-- Witness for `no_parser_ends_failed_and_stops`: a concrete run over a
`.abc` document with only a `.pdf` parser registered. -/
theorem no_parser_ends_failed_and_stops_witness :
    dictGet? (json_save_documents_metadata [] [mkDoc "/w/y.abc" "y.abc" ".abc" 2] 0)
        (make_key (mkDoc "/w/y.abc" "y.abc" ".abc" 2))
      = some (json_to_dict (mkDoc "/w/y.abc" "y.abc" ".abc" 2) 0)
    ∧ happyEnv.pathExists "/w/y.abc" = true
    ∧ getParser happyEnv.parsers (mkDoc "/w/y.abc" "y.abc" ".abc" 2) = none
    ∧ statusOf (processSingleDocument happyEnv (mkDoc "/w/y.abc" "y.abc" ".abc" 2)
        (json_save_documents_metadata [] [mkDoc "/w/y.abc" "y.abc" ".abc" 2] 0) [] 1).1
        (mkDoc "/w/y.abc" "y.abc" ".abc" 2) = some "failed" :=
  ⟨by decide, rfl, by decide,
    (no_parser_ends_failed_and_stops happyEnv (mkDoc "/w/y.abc" "y.abc" ".abc" 2)
      (json_save_documents_metadata [] [mkDoc "/w/y.abc" "y.abc" ".abc" 2] 0) [] 1
      (json_to_dict (mkDoc "/w/y.abc" "y.abc" ".abc" 2) 0) (by decide) rfl (by decide)).1⟩

/-- Claim C7: for every pending document whose chunking yields zero chunks,
`_process_single_document` persists status FAILED with the error
`"Document {source_path} contains no extractable text"` (which contains the
phrase `"no extractable text"`), performs no vector-store operation for the
document (the vector store is returned untouched), and leaves the record's
`chunk_count` unchanged — in particular a stored chunk count of 0 stays 0. -/
theorem zero_chunks_ends_failed_no_extractable_text (env : IngestEnv)
    (doc : DocumentMetadata) (ms : JsonState) (vs : VecState) (now : Int)
    (item : JsonItem) (p : Parser) (content : List Chunk)
    (hkey : dictGet? ms (make_key doc) = some item)
    (hpath : env.pathExists doc.source_path = true)
    (hparser : getParser env.parsers doc = some p)
    (hparse : env.parseDoc p doc = .ok content)
    (hchunk : env.chunk_documents content = []) :
    statusOf (processSingleDocument env doc ms vs now).1 doc = some "failed"
    ∧ (∃ pre post, errorOf (processSingleDocument env doc ms vs now).1 doc
        = some (pre ++ "no extractable text" ++ post))
    ∧ errorOf (processSingleDocument env doc ms vs now).1 doc
        = some ("Document " ++ doc.source_path ++ " contains no extractable text")
    ∧ (processSingleDocument env doc ms vs now).2 = vs
    ∧ chunkCountOf (processSingleDocument env doc ms vs now).1 doc = some item.chunk_count
    ∧ (item.chunk_count = 0 →
        chunkCountOf (processSingleDocument env doc ms vs now).1 doc = some 0) := by
  have hred : processSingleDocument env doc ms vs now
      = (json_update_document_processing_status
          (json_update_document_processing_status ms doc .processing "" none now)
          doc .failed ("Document " ++ doc.source_path ++ " contains no extractable text")
          none now, vs) := by
    unfold processSingleDocument
    simp [hpath, hparser, hparse, hchunk]
  rw [hred]
  obtain ⟨h1, h2, h3⟩ := json_two_updates_fields ms doc .processing ""
    .failed ("Document " ++ doc.source_path ++ " contains no extractable text") none now item hkey
  refine ⟨h1, ⟨"Document " ++ doc.source_path ++ " contains ", "", ?_⟩, h2, rfl, h3, ?_⟩
  · rw [h2]
    congr 1
    conv_rhs => rw [String.append_empty, String.append_assoc]
    rfl
  · intro h0
    rw [h3, h0]

/-- Witness for `zero_chunks_ends_failed_no_extractable_text`: a concrete run
over a parsable `.pdf` document whose chunking yields nothing. -/
theorem zero_chunks_ends_failed_witness :
    getParser happyEnv.parsers (mkDoc "/w/z.pdf" "z.pdf" ".pdf" 6)
      = some { supported_extensions := [".pdf"] }
    ∧ statusOf (processSingleDocument
        { happyEnv with chunk_documents := fun _ => [] }
        (mkDoc "/w/z.pdf" "z.pdf" ".pdf" 6)
        (json_save_documents_metadata [] [mkDoc "/w/z.pdf" "z.pdf" ".pdf" 6] 0) [] 1).1
        (mkDoc "/w/z.pdf" "z.pdf" ".pdf" 6) = some "failed" :=
  ⟨by decide,
    (zero_chunks_ends_failed_no_extractable_text
      { happyEnv with chunk_documents := fun _ => [] }
      (mkDoc "/w/z.pdf" "z.pdf" ".pdf" 6)
      (json_save_documents_metadata [] [mkDoc "/w/z.pdf" "z.pdf" ".pdf" 6] 0) [] 1
      (json_to_dict (mkDoc "/w/z.pdf" "z.pdf" ".pdf" 6) 0)
      { supported_extensions := [".pdf"] }
      [{ source := "/w/z.pdf", text := "some text" }]
      (by decide) rfl (by decide) rfl rfl).1⟩

/-- Claim C3: every failure of a document's pipeline run — missing file,
missing parser, raised parse exception, empty chunking result, raised
vector-store call — is absorbed at the per-document boundary of
`_process_single_document`: the run always terminates with a persisted
status of `"failed"` or `"completed"` for the document; each failure kind
persists `"failed"` together with a non-empty `vector_error` that carries
the exception text; failures at or before the parse/chunk step leave the
vector store untouched; and the batch loop of `process_pending_documents`
always continues with the remaining documents. -/
theorem per_document_exception_boundary (env : IngestEnv) (doc : DocumentMetadata)
    (ms : JsonState) (vs : VecState) (now : Int) (rest : List DocumentMetadata)
    (item : JsonItem) (hkey : dictGet? ms (make_key doc) = some item) :
    (statusOf (processSingleDocument env doc ms vs now).1 doc = some "failed"
      ∨ statusOf (processSingleDocument env doc ms vs now).1 doc = some "completed")
    ∧ (env.pathExists doc.source_path = false →
        statusOf (processSingleDocument env doc ms vs now).1 doc = some "failed"
        ∧ errorOf (processSingleDocument env doc ms vs now).1 doc
            = some ("File does not exist: " ++ doc.source_path)
        ∧ ("File does not exist: " ++ doc.source_path) ≠ ""
        ∧ (processSingleDocument env doc ms vs now).2 = vs)
    ∧ (env.pathExists doc.source_path = true →
        getParser env.parsers doc = none →
        statusOf (processSingleDocument env doc ms vs now).1 doc = some "failed"
        ∧ errorOf (processSingleDocument env doc ms vs now).1 doc
            = some ("No parser available for " ++ doc.file_name)
        ∧ ("No parser available for " ++ doc.file_name) ≠ ""
        ∧ (processSingleDocument env doc ms vs now).2 = vs)
    ∧ (∀ p e, env.pathExists doc.source_path = true →
        getParser env.parsers doc = some p →
        env.parseDoc p doc = .error e →
        statusOf (processSingleDocument env doc ms vs now).1 doc = some "failed"
        ∧ errorOf (processSingleDocument env doc ms vs now).1 doc
            = some ("Failed to process " ++ doc.file_name ++ ": " ++ e)
        ∧ ("Failed to process " ++ doc.file_name ++ ": " ++ e) ≠ ""
        ∧ (processSingleDocument env doc ms vs now).2 = vs)
    ∧ (∀ p content, env.pathExists doc.source_path = true →
        getParser env.parsers doc = some p →
        env.parseDoc p doc = .ok content →
        env.chunk_documents content = [] →
        statusOf (processSingleDocument env doc ms vs now).1 doc = some "failed"
        ∧ (processSingleDocument env doc ms vs now).2 = vs)
    ∧ (∀ p content e, env.pathExists doc.source_path = true →
        getParser env.parsers doc = some p →
        env.parseDoc p doc = .ok content →
        env.chunk_documents content ≠ [] →
        env.document_exists doc.source_path = .error e →
        statusOf (processSingleDocument env doc ms vs now).1 doc = some "failed"
        ∧ errorOf (processSingleDocument env doc ms vs now).1 doc
            = some ("Failed to process " ++ doc.file_name ++ ": " ++ e)
        ∧ ("Failed to process " ++ doc.file_name ++ ": " ++ e) ≠ "")
    ∧ (∀ p content e, env.pathExists doc.source_path = true →
        getParser env.parsers doc = some p →
        env.parseDoc p doc = .ok content →
        env.chunk_documents content ≠ [] →
        env.document_exists doc.source_path = .ok false →
        (env.add_documents (env.chunk_documents content) vs).1 = some e →
        statusOf (processSingleDocument env doc ms vs now).1 doc = some "failed"
        ∧ errorOf (processSingleDocument env doc ms vs now).1 doc
            = some ("Failed to process " ++ doc.file_name ++ ": " ++ e)
        ∧ ("Failed to process " ++ doc.file_name ++ ": " ++ e) ≠ "")
    ∧ processDocuments env (doc :: rest) ms vs now
        = processDocuments env rest (processSingleDocument env doc ms vs now).1
            (processSingleDocument env doc ms vs now).2 now := by
  have hfields : ∀ st₂ err₂ cc₂,
      statusOf (json_update_document_processing_status
        (json_update_document_processing_status ms doc .processing "" none now)
        doc st₂ err₂ cc₂ now) doc = some st₂.value
      ∧ errorOf (json_update_document_processing_status
        (json_update_document_processing_status ms doc .processing "" none now)
        doc st₂ err₂ cc₂ now) doc = some err₂ := by
    intro st₂ err₂ cc₂
    obtain ⟨h1, h2, _⟩ := json_two_updates_fields ms doc .processing "" st₂ err₂ cc₂ now item hkey
    exact ⟨h1, h2⟩
  refine ⟨?_, ?_, ?_, ?_, ?_, ?_, ?_, rfl⟩
  · cases hpath : env.pathExists doc.source_path with
    | false =>
      left
      have hred : (processSingleDocument env doc ms vs now).1
          = json_update_document_processing_status
              (json_update_document_processing_status ms doc .processing "" none now)
              doc .failed ("File does not exist: " ++ doc.source_path) none now := by
        unfold processSingleDocument
        simp [hpath]
      rw [hred]
      exact (hfields .failed _ none).1
    | true =>
      cases hp : getParser env.parsers doc with
      | none =>
        left
        have hred : (processSingleDocument env doc ms vs now).1
            = json_update_document_processing_status
                (json_update_document_processing_status ms doc .processing "" none now)
                doc .failed ("No parser available for " ++ doc.file_name) none now := by
          unfold processSingleDocument
          simp [hpath, hp]
        rw [hred]
        exact (hfields .failed _ none).1
      | some p =>
        cases hparse : env.parseDoc p doc with
        | error e =>
          left
          have hred : (processSingleDocument env doc ms vs now).1
              = json_update_document_processing_status
                  (json_update_document_processing_status ms doc .processing "" none now)
                  doc .failed ("Failed to process " ++ doc.file_name ++ ": " ++ e) none now := by
            unfold processSingleDocument
            simp [hpath, hp, hparse]
          rw [hred]
          exact (hfields .failed _ none).1
        | ok content =>
          cases hchunk : (env.chunk_documents content).isEmpty with
          | true =>
            left
            have hred : (processSingleDocument env doc ms vs now).1
                = json_update_document_processing_status
                    (json_update_document_processing_status ms doc .processing "" none now)
                    doc .failed ("Document " ++ doc.source_path ++ " contains no extractable text")
                    none now := by
              unfold processSingleDocument
              simp [hpath, hp, hparse, hchunk]
            rw [hred]
            exact (hfields .failed _ none).1
          | false =>
            cases hex : env.document_exists doc.source_path with
            | error e =>
              left
              have hred : (processSingleDocument env doc ms vs now).1
                  = json_update_document_processing_status
                      (json_update_document_processing_status ms doc .processing "" none now)
                      doc .failed ("Failed to process " ++ doc.file_name ++ ": " ++ e) none now := by
                unfold processSingleDocument
                simp [hpath, hp, hparse, hchunk, hex]
              rw [hred]
              exact (hfields .failed _ none).1
            | ok existsFlag =>
              cases hdel : (if existsFlag = true
                  then env.delete_vectors_by_source doc.source_path vs
                  else (none, vs)) with
              | mk de vs₁ =>
                cases de with
                | some e =>
                  left
                  have hred : (processSingleDocument env doc ms vs now).1
                      = json_update_document_processing_status
                          (json_update_document_processing_status ms doc .processing "" none now)
                          doc .failed ("Failed to process " ++ doc.file_name ++ ": " ++ e) none now := by
                    unfold processSingleDocument
                    simp [hpath, hp, hparse, hchunk, hex, hdel]
                  rw [hred]
                  exact (hfields .failed _ none).1
                | none =>
                  cases hadd : env.add_documents (env.chunk_documents content) vs₁ with
                  | mk ae vs₂ =>
                    cases ae with
                    | some e =>
                      left
                      have hred : (processSingleDocument env doc ms vs now).1
                          = json_update_document_processing_status
                              (json_update_document_processing_status ms doc .processing "" none now)
                              doc .failed ("Failed to process " ++ doc.file_name ++ ": " ++ e) none now := by
                        unfold processSingleDocument
                        simp [hpath, hp, hparse, hchunk, hex, hdel, hadd]
                      rw [hred]
                      exact (hfields .failed _ none).1
                    | none =>
                      right
                      have hred : (processSingleDocument env doc ms vs now).1
                          = json_update_document_processing_status
                              (json_update_document_processing_status ms doc .processing "" none now)
                              doc .completed "" (some (env.chunk_documents content).length) now := by
                        unfold processSingleDocument
                        simp [hpath, hp, hparse, hchunk, hex, hdel, hadd]
                      rw [hred]
                      exact (hfields .completed _ _).1
  · intro hpath
    have hred : processSingleDocument env doc ms vs now
        = (json_update_document_processing_status
            (json_update_document_processing_status ms doc .processing "" none now)
            doc .failed ("File does not exist: " ++ doc.source_path) none now, vs) := by
      unfold processSingleDocument
      simp [hpath]
    rw [hred]
    exact ⟨(hfields .failed _ none).1, (hfields .failed _ none).2,
      str_append_ne_left _ _ (by decide), rfl⟩
  · intro hpath hp
    have hred : processSingleDocument env doc ms vs now
        = (json_update_document_processing_status
            (json_update_document_processing_status ms doc .processing "" none now)
            doc .failed ("No parser available for " ++ doc.file_name) none now, vs) := by
      unfold processSingleDocument
      simp [hpath, hp]
    rw [hred]
    exact ⟨(hfields .failed _ none).1, (hfields .failed _ none).2,
      str_append_ne_left _ _ (by decide), rfl⟩
  · intro p e hpath hp hparse
    have hred : processSingleDocument env doc ms vs now
        = (json_update_document_processing_status
            (json_update_document_processing_status ms doc .processing "" none now)
            doc .failed ("Failed to process " ++ doc.file_name ++ ": " ++ e) none now, vs) := by
      unfold processSingleDocument
      simp [hpath, hp, hparse]
    rw [hred]
    exact ⟨(hfields .failed _ none).1, (hfields .failed _ none).2,
      str_append_ne_left _ _ (str_append_ne_left _ _ (str_append_ne_left _ _ (by decide))), rfl⟩
  · intro p content hpath hp hparse hchunk
    have hred : processSingleDocument env doc ms vs now
        = (json_update_document_processing_status
            (json_update_document_processing_status ms doc .processing "" none now)
            doc .failed ("Document " ++ doc.source_path ++ " contains no extractable text")
            none now, vs) := by
      unfold processSingleDocument
      simp [hpath, hp, hparse, hchunk]
    rw [hred]
    exact ⟨(hfields .failed _ none).1, rfl⟩
  · intro p content e hpath hp hparse hchunk hex
    have hchunk' : (env.chunk_documents content).isEmpty = false := by
      cases hc : env.chunk_documents content with
      | nil => exact absurd hc hchunk
      | cons a l => rfl
    have hred : processSingleDocument env doc ms vs now
        = (json_update_document_processing_status
            (json_update_document_processing_status ms doc .processing "" none now)
            doc .failed ("Failed to process " ++ doc.file_name ++ ": " ++ e) none now, vs) := by
      unfold processSingleDocument
      simp [hpath, hp, hparse, hchunk', hex]
    rw [hred]
    exact ⟨(hfields .failed _ none).1, (hfields .failed _ none).2,
      str_append_ne_left _ _ (str_append_ne_left _ _ (str_append_ne_left _ _ (by decide)))⟩
  · intro p content e hpath hp hparse hchunk hex hadd
    have hchunk' : (env.chunk_documents content).isEmpty = false := by
      cases hc : env.chunk_documents content with
      | nil => exact absurd hc hchunk
      | cons a l => rfl
    cases ha : env.add_documents (env.chunk_documents content) vs with
    | mk ae vs₂ =>
      rw [ha] at hadd
      simp only at hadd
      subst hadd
      have hred : processSingleDocument env doc ms vs now
          = (json_update_document_processing_status
              (json_update_document_processing_status ms doc .processing "" none now)
              doc .failed ("Failed to process " ++ doc.file_name ++ ": " ++ e) none now,
            vs₂) := by
        unfold processSingleDocument
        simp [hpath, hp, hparse, hchunk', hex, ha]
      rw [hred]
      exact ⟨(hfields .failed _ none).1, (hfields .failed _ none).2,
        str_append_ne_left _ _ (str_append_ne_left _ _ (str_append_ne_left _ _ (by decide)))⟩

/-- Witness for `per_document_exception_boundary`: a concrete run whose parse
step raises. -/
theorem per_document_exception_boundary_witness :
    dictGet? (json_save_documents_metadata [] [mkDoc "/w/q.pdf" "q.pdf" ".pdf" 8] 0)
        (make_key (mkDoc "/w/q.pdf" "q.pdf" ".pdf" 8))
      = some (json_to_dict (mkDoc "/w/q.pdf" "q.pdf" ".pdf" 8) 0)
    ∧ (statusOf (processSingleDocument
          { happyEnv with parseDoc := fun _ _ => .error "kaput" }
          (mkDoc "/w/q.pdf" "q.pdf" ".pdf" 8)
          (json_save_documents_metadata [] [mkDoc "/w/q.pdf" "q.pdf" ".pdf" 8] 0) [] 1).1
          (mkDoc "/w/q.pdf" "q.pdf" ".pdf" 8) = some "failed"
        ∨ statusOf (processSingleDocument
          { happyEnv with parseDoc := fun _ _ => .error "kaput" }
          (mkDoc "/w/q.pdf" "q.pdf" ".pdf" 8)
          (json_save_documents_metadata [] [mkDoc "/w/q.pdf" "q.pdf" ".pdf" 8] 0) [] 1).1
          (mkDoc "/w/q.pdf" "q.pdf" ".pdf" 8) = some "completed") :=
  ⟨by decide,
    (per_document_exception_boundary
      { happyEnv with parseDoc := fun _ _ => .error "kaput" }
      (mkDoc "/w/q.pdf" "q.pdf" ".pdf" 8)
      (json_save_documents_metadata [] [mkDoc "/w/q.pdf" "q.pdf" ".pdf" 8] 0) [] 1 []
      (json_to_dict (mkDoc "/w/q.pdf" "q.pdf" ".pdf" 8) 0) (by decide)).1⟩

theorem sqlite_upsert_one_present (tbl : SqliteTable) (doc : DocumentMetadata) (now : Int)
    (h : tbl.any (fun row => rowMatchesKey row doc) = true) :
    sqlite_upsert_one tbl doc now = tbl.map (fun row =>
      if rowMatchesKey row doc then
        { row with
            file_hash := doc.file_hash
            file_size := doc.file_size
            last_modified := doc.last_modified
            chunk_count := 0
            updated_at := now
            vector_status := doc.vector_status.value
            is_deleted := 0 }
      else row) := by
  unfold sqlite_upsert_one
  rw [if_pos h]

theorem rowMatchesKey_of_updated (row : SqliteRow) (doc : DocumentMetadata) (now : Int)
    (h : rowMatchesKey row doc = true) :
    rowMatchesKey { row with
        file_hash := doc.file_hash
        file_size := doc.file_size
        last_modified := doc.last_modified
        chunk_count := 0
        updated_at := now
        vector_status := doc.vector_status.value
        is_deleted := 0 } doc = true := by
  simpa [rowMatchesKey] using h

theorem sqlite_upsert_any_preserved (tbl : SqliteTable) (doc : DocumentMetadata) (now : Int)
    (h : tbl.any (fun row => rowMatchesKey row doc) = true) :
    (sqlite_upsert_one tbl doc now).any (fun row => rowMatchesKey row doc) = true := by
  rw [sqlite_upsert_one_present tbl doc now h, List.any_map, List.any_eq_true]
  rw [List.any_eq_true] at h
  obtain ⟨row, hrow, hm⟩ := h
  refine ⟨row, hrow, ?_⟩
  simp only [Function.comp, hm, if_pos]
  exact rowMatchesKey_of_updated row doc now hm

theorem sqlite_upsert_matching_row_fields (tbl : SqliteTable) (doc : DocumentMetadata)
    (now : Int) (h : tbl.any (fun row => rowMatchesKey row doc) = true) :
    ∀ row' ∈ sqlite_upsert_one tbl doc now, rowMatchesKey row' doc = true →
      row'.file_hash = doc.file_hash ∧ row'.file_size = doc.file_size
      ∧ row'.last_modified = doc.last_modified
      ∧ row'.vector_status = doc.vector_status.value
      ∧ row'.chunk_count = 0 ∧ row'.is_deleted = 0 ∧ row'.updated_at = now := by
  rw [sqlite_upsert_one_present tbl doc now h]
  intro row' hmem hmatch
  rw [List.mem_map] at hmem
  obtain ⟨row, hrow, rfl⟩ := hmem
  by_cases hm : rowMatchesKey row doc = true
  · rw [if_pos hm]
    exact ⟨rfl, rfl, rfl, rfl, rfl, rfl, rfl⟩
  · rw [if_neg hm] at hmatch ⊢
    exact absurd hmatch hm

/-- Claim C4 (counterexample): in the JSON store, upserting a record whose
key already exists does not reset the stored `chunk_count` to 0 — the store
replaces the item wholesale with `_to_dict(doc)`, so the stored
`chunk_count` becomes the incoming record's value.  Here a record is saved,
then upserted again carrying `chunk_count = 7`: the stored chunk count ends
up 7, not 0. -/
theorem json_upsert_keeps_incoming_chunk_count :
    (dictGet? (json_save_documents_metadata
        (json_save_documents_metadata [] [mkDoc "/c/r.pdf" "r.pdf" ".pdf" 5] 0)
        [{ mkDoc "/c/r.pdf" "r.pdf" ".pdf" 5 with chunk_count := 7 }] 1)
        (make_key (mkDoc "/c/r.pdf" "r.pdf" ".pdf" 5))).map (fun item => item.chunk_count)
      = some 7
    ∧ ¬ ((dictGet? (json_save_documents_metadata
        (json_save_documents_metadata [] [mkDoc "/c/r.pdf" "r.pdf" ".pdf" 5] 0)
        [{ mkDoc "/c/r.pdf" "r.pdf" ".pdf" 5 with chunk_count := 7 }] 1)
        (make_key (mkDoc "/c/r.pdf" "r.pdf" ".pdf" 5))).map (fun item => item.chunk_count)
      = some 0) := by
  refine ⟨by decide, by decide⟩

/-- Claim C4 (amended): upserting a record whose identity key already exists
overwrites hash, size, `last_modified` and status with the incoming values,
clears the soft-delete flag and bumps `updated_at` in both stores.  The
SQLite store additionally resets the stored `chunk_count` to 0 on conflict;
the JSON store instead replaces the item wholesale, so the stored
`chunk_count` becomes the incoming record's `chunk_count` — which is 0 for
freshly discovered documents.  A second upsert of identical content behaves
the same: `chunk_count` is again 0 (SQLite unconditionally; JSON whenever
the incoming record carries 0) and status is again the incoming value. -/
theorem save_or_update_upsert_semantics (tbl : SqliteTable) (data : JsonState)
    (doc : DocumentMetadata) (now now₂ : Int)
    (h : tbl.any (fun row => rowMatchesKey row doc) = true) :
    (∀ row' ∈ sqlite_save_documents_metadata tbl [doc] now,
      rowMatchesKey row' doc = true →
        row'.file_hash = doc.file_hash ∧ row'.file_size = doc.file_size
        ∧ row'.last_modified = doc.last_modified
        ∧ row'.vector_status = doc.vector_status.value
        ∧ row'.chunk_count = 0 ∧ row'.is_deleted = 0 ∧ row'.updated_at = now)
    ∧ (∀ row' ∈ sqlite_save_documents_metadata
          (sqlite_save_documents_metadata tbl [doc] now) [doc] now₂,
      rowMatchesKey row' doc = true →
        row'.chunk_count = 0 ∧ row'.vector_status = doc.vector_status.value
        ∧ row'.updated_at = now₂)
    ∧ dictGet? (json_save_documents_metadata data [doc] now) (make_key doc)
        = some (json_to_dict doc now)
    ∧ (json_to_dict doc now).vector_status = doc.vector_status.value
    ∧ (json_to_dict doc now).is_deleted = 0
    ∧ (json_to_dict doc now).updated_at = now
    ∧ (json_to_dict doc now).chunk_count = doc.chunk_count
    ∧ (doc.chunk_count = 0 →
        (dictGet? (json_save_documents_metadata
            (json_save_documents_metadata data [doc] now) [doc] now₂)
          (make_key doc)).map (fun item => item.chunk_count) = some 0) := by
  refine ⟨sqlite_upsert_matching_row_fields tbl doc now h, ?_, ?_, rfl, rfl, rfl, rfl, ?_⟩
  · intro row' hmem hmatch
    have h₂ := sqlite_upsert_any_preserved tbl doc now h
    obtain ⟨h1, h2, h3, h4, h5, h6, h7⟩ :=
      sqlite_upsert_matching_row_fields (sqlite_upsert_one tbl doc now) doc now₂ h₂
        row' hmem hmatch
    exact ⟨h5, h4, h7⟩
  · exact dictGet?_dictInsert_same data (make_key doc) (json_to_dict doc now)
  · intro h0
    have : dictGet? (json_save_documents_metadata
        (json_save_documents_metadata data [doc] now) [doc] now₂) (make_key doc)
        = some (json_to_dict doc now₂) :=
      dictGet?_dictInsert_same _ (make_key doc) (json_to_dict doc now₂)
    rw [this]
    simp [json_to_dict, h0]

/-- Witness for `save_or_update_upsert_semantics`: a table already holding a
row for the document, upserted twice. -/
theorem save_or_update_upsert_semantics_witness :
    ((sqlite_save_documents_metadata [] [mkDoc "/c/s.pdf" "s.pdf" ".pdf" 2] 0).any
      (fun row => rowMatchesKey row (mkDoc "/c/s.pdf" "s.pdf" ".pdf" 2))) = true
    ∧ dictGet? (json_save_documents_metadata []
          [mkDoc "/c/s.pdf" "s.pdf" ".pdf" 2] 4) (make_key (mkDoc "/c/s.pdf" "s.pdf" ".pdf" 2))
        = some (json_to_dict (mkDoc "/c/s.pdf" "s.pdf" ".pdf" 2) 4) :=
  ⟨by decide,
    (save_or_update_upsert_semantics
      (sqlite_save_documents_metadata [] [mkDoc "/c/s.pdf" "s.pdf" ".pdf" 2] 0) []
      (mkDoc "/c/s.pdf" "s.pdf" ".pdf" 2) 4 5 (by decide)).2.2.1⟩

/-- Claim C8 (counterexample): the SQLite store's
`update_document_processing_status` guards the chunk-count column with the
truthiness test `if chunk_count:`, so a supplied `chunk_count = 0` is
treated as absent.  A row stored with `chunk_count = 5` and then updated
with `chunk_count = 0` keeps 5. -/
theorem sqlite_update_ignores_supplied_zero_chunk_count :
    (sqlite_update_document_processing_status
        (sqlite_save_documents_metadata []
          [{ mkDoc "/c/u.pdf" "u.pdf" ".pdf" 3 with chunk_count := 5 }] 0)
        { mkDoc "/c/u.pdf" "u.pdf" ".pdf" 3 with chunk_count := 5 }
        .failed "" (some 0) 9).map (fun row => row.chunk_count) = [5]
    ∧ ¬ ((sqlite_update_document_processing_status
        (sqlite_save_documents_metadata []
          [{ mkDoc "/c/u.pdf" "u.pdf" ".pdf" 3 with chunk_count := 5 }] 0)
        { mkDoc "/c/u.pdf" "u.pdf" ".pdf" 3 with chunk_count := 5 }
        .failed "" (some 0) 9).map (fun row => row.chunk_count) = [0]) := by
  refine ⟨by decide, by decide⟩

/-- Claim C8 (amended): `update_status` touches only `vector_status`,
`vector_error`, `chunk_count` and `updated_at` of the rows matching the
document's key, leaving every other field and every other record unchanged,
and an absent key changes nothing and raises nothing.  A supplied
`chunk_count` is applied unconditionally (including 0) by the JSON store,
but only when nonzero by the SQLite store, whose `if chunk_count:` guard
drops a supplied 0 and keeps the stored value. -/
theorem update_status_touches_only_status_fields (tbl : SqliteTable) (data : JsonState)
    (doc : DocumentMetadata) (st : VectorStatus) (err : String) (cc : Option Nat)
    (now : Int) :
    sqlite_update_document_processing_status tbl doc st err cc now
      = tbl.map (fun row =>
          if rowMatchesKey row doc then
            { row with
                vector_status := st.value
                vector_error := err
                chunk_count := if chunkCountTruthy cc then cc.getD 0 else row.chunk_count
                updated_at := now }
          else row)
    ∧ ((∀ row ∈ tbl, rowMatchesKey row doc = false) →
        sqlite_update_document_processing_status tbl doc st err cc now = tbl)
    ∧ (∀ item, dictGet? data (make_key doc) = some item →
        dictGet? (json_update_document_processing_status data doc st err cc now)
            (make_key doc)
          = some { item with
                     vector_status := st.value
                     vector_error := err
                     chunk_count := match cc with
                       | some c => c
                       | none => item.chunk_count
                     updated_at := now })
    ∧ (∀ k', k' ≠ make_key doc →
        dictGet? (json_update_document_processing_status data doc st err cc now) k'
          = dictGet? data k')
    ∧ (dictGet? data (make_key doc) = none →
        json_update_document_processing_status data doc st err cc now = data) := by
  have hchar : sqlite_update_document_processing_status tbl doc st err cc now
      = tbl.map (fun row =>
          if rowMatchesKey row doc then
            { row with
                vector_status := st.value
                vector_error := err
                chunk_count := if chunkCountTruthy cc then cc.getD 0 else row.chunk_count
                updated_at := now }
          else row) := by
    unfold sqlite_update_document_processing_status
    by_cases h : chunkCountTruthy cc = true
    · rw [if_pos h]
      apply List.map_congr_left
      intro row _
      by_cases hm : rowMatchesKey row doc = true
      · rw [if_pos hm, if_pos hm, if_pos h]
      · rw [if_neg hm, if_neg hm]
    · rw [if_neg h]
      apply List.map_congr_left
      intro row _
      by_cases hm : rowMatchesKey row doc = true
      · rw [if_pos hm, if_pos hm, if_neg h]
      · rw [if_neg hm, if_neg hm]
  refine ⟨hchar, ?_, ?_, ?_, ?_⟩
  · intro hnone
    rw [hchar]
    have : ∀ row ∈ tbl, (if rowMatchesKey row doc then
        { row with
            vector_status := st.value
            vector_error := err
            chunk_count := if chunkCountTruthy cc then cc.getD 0 else row.chunk_count
            updated_at := now }
      else row) = row := by
      intro row hrow
      rw [if_neg (by rw [hnone row hrow]; exact Bool.false_ne_true)]
    rw [List.map_congr_left this]
    simp
  · intro item hitem
    exact json_update_dictGet?_present data doc st err cc now item hitem
  · intro k' hk'
    exact json_update_dictGet?_other data doc st err cc now k' hk'
  · intro hnone
    exact json_update_dictGet?_absent data doc st err cc now hnone

/-- Witness for `update_status_touches_only_status_fields`: one stored JSON
item updated to FAILED with `chunk_count = 0` supplied, and a one-row SQLite
table with no matching key left unchanged. -/
theorem update_status_touches_only_status_fields_witness :
    dictGet? (json_save_documents_metadata [] [mkDoc "/c/v.txt" "v.txt" ".txt" 1] 0)
        (make_key (mkDoc "/c/w.txt" "w.txt" ".txt" 1)) = none
    ∧ json_update_document_processing_status
        (json_save_documents_metadata [] [mkDoc "/c/v.txt" "v.txt" ".txt" 1] 0)
        (mkDoc "/c/w.txt" "w.txt" ".txt" 1) .failed "" (some 0) 9
      = json_save_documents_metadata [] [mkDoc "/c/v.txt" "v.txt" ".txt" 1] 0 :=
  ⟨by decide,
    (update_status_touches_only_status_fields []
      (json_save_documents_metadata [] [mkDoc "/c/v.txt" "v.txt" ".txt" 1] 0)
      (mkDoc "/c/w.txt" "w.txt" ".txt" 1) .failed "" (some 0) 9).2.2.2.2 (by decide)⟩

theorem json_load_mem_inv (data : JsonState) (vsf : Option StatusFilter)
    (exts : Option (List String)) (stf : Option String) (r : DocumentMetadata)
    (h : r ∈ json_load_documents_metadata data vsf exts stf) :
    ∃ e ∈ data, e.2.is_deleted = 0 ∧ r = json_from_dict e.2 := by
  unfold json_load_documents_metadata at h
  rw [List.mem_filterMap] at h
  obtain ⟨e, he, hf⟩ := h
  refine ⟨e, he, ?_⟩
  by_cases h1 : e.2.is_deleted ≠ 0
  · rw [if_pos h1] at hf
    exact Option.noConfusion hf
  · rw [if_neg h1] at hf
    refine ⟨not_not.mp h1, ?_⟩
    split at hf
    · exact Option.noConfusion hf
    · split at hf
      · exact Option.noConfusion hf
      · split at hf
        · exact Option.noConfusion hf
        · exact (Option.some.inj hf).symm

theorem json_delete_mem_inv (ms : JsonState) (d : DocumentMetadata) (t : Int)
    (e' : String × JsonItem) (h : e' ∈ json_delete_documents_metadata ms [d] t) :
    ∃ e ∈ ms, e'.1 = e.1 ∧ e'.2.source_type = e.2.source_type
      ∧ e'.2.source_path = e.2.source_path
      ∧ (e.1 = make_key d → e'.2.is_deleted = 1) := by
  rw [json_delete_singleton] at h
  by_cases hany : ms.any (fun e => e.1 = make_key d) = true
  · rw [if_pos hany] at h
    rw [List.mem_map] at h
    obtain ⟨e, he, rfl⟩ := h
    by_cases hk : e.1 = make_key d
    · refine ⟨e, he, ?_, ?_, ?_, ?_⟩ <;> simp [hk]
    · refine ⟨e, he, ?_, ?_, ?_, ?_⟩ <;> simp [hk]
  · rw [if_neg hany] at h
    refine ⟨e', h, rfl, rfl, rfl, fun hk => ?_⟩
    rw [List.any_eq_true] at hany
    push_neg at hany
    exact absurd (by simpa using hk) (by simpa using hany e' h)

theorem sqlite_delete_singleton (tbl : SqliteTable) (d : DocumentMetadata) (t : Int) :
    sqlite_delete_documents_metadata tbl [d] t
      = tbl.map (fun row =>
          if rowMatchesKey row d then { row with is_deleted := 1, updated_at := t }
          else row) := rfl

theorem sqlite_load_mem_inv (tbl : SqliteTable) (exts : Option (List String))
    (stf vsf : Option String) (r : DocumentMetadata)
    (h : r ∈ sqlite_load_documents_metadata tbl exts stf vsf) :
    ∃ row ∈ tbl, row.is_deleted = 0 ∧ r.source_type = row.source_type
      ∧ r.source_path = row.source_path := by
  unfold sqlite_load_documents_metadata at h
  rw [List.mem_map] at h
  obtain ⟨row, hrow, rfl⟩ := h
  rw [List.mem_filter] at hrow
  obtain ⟨hmem, hpass⟩ := hrow
  simp only [sqliteRowPassesFilters, Bool.decide_and, Bool.and_eq_true,
    decide_eq_true_eq] at hpass
  exact ⟨row, hmem, hpass.1, rfl, rfl⟩

/-- Claim C9 (counterexample): a duplicate soft-delete call is not free of
state change: both calls run the same UPDATE, and the second bumps
`updated_at` again.  Here a record soft-deleted at time 1 and again at time
2 ends with `updated_at = 2`, so the store after the second call differs
from the store after the first. -/
theorem duplicate_soft_delete_bumps_updated_at :
    json_delete_documents_metadata (json_delete_documents_metadata
        (json_save_documents_metadata [] [mkDoc "/c/x.txt" "x.txt" ".txt" 2] 0)
        [mkDoc "/c/x.txt" "x.txt" ".txt" 2] 1) [mkDoc "/c/x.txt" "x.txt" ".txt" 2] 2
      ≠ json_delete_documents_metadata
        (json_save_documents_metadata [] [mkDoc "/c/x.txt" "x.txt" ".txt" 2] 0)
        [mkDoc "/c/x.txt" "x.txt" ".txt" 2] 1
    ∧ (dictGet? (json_delete_documents_metadata (json_delete_documents_metadata
        (json_save_documents_metadata [] [mkDoc "/c/x.txt" "x.txt" ".txt" 2] 0)
        [mkDoc "/c/x.txt" "x.txt" ".txt" 2] 1) [mkDoc "/c/x.txt" "x.txt" ".txt" 2] 2)
        (make_key (mkDoc "/c/x.txt" "x.txt" ".txt" 2))).map (fun item => item.updated_at)
      = some 2
    ∧ (dictGet? (json_delete_documents_metadata
        (json_save_documents_metadata [] [mkDoc "/c/x.txt" "x.txt" ".txt" 2] 0)
        [mkDoc "/c/x.txt" "x.txt" ".txt" 2] 1)
        (make_key (mkDoc "/c/x.txt" "x.txt" ".txt" 2))).map (fun item => item.updated_at)
      = some 1 := by
  refine ⟨by decide, by decide, by decide⟩

/-- Claim C9 (amended): after soft-deleting a record, no record with its
`(source_type, source_path)` identity appears in the result of any
subsequent load, whatever combination of filters is supplied — proved for
both stores (for the JSON store under the invariant that each entry sits
under the key `_make_key` built from it).  A duplicate soft-delete raises
no error and changes nothing except `updated_at`, which it sets anew: a
repeated soft-delete equals a single soft-delete at the later call's
timestamp, so at an unchanged clock it is a no-op. -/
theorem soft_delete_excludes_and_absorbs (ms : JsonState) (tbl : SqliteTable)
    (d : DocumentMetadata) (t t₁ t₂ : Int)
    (wf : ∀ e ∈ ms, e.1 = e.2.source_type ++ ":" ++ e.2.source_path) :
    (∀ vsf exts stf, ∀ r ∈ json_load_documents_metadata
        (json_delete_documents_metadata ms [d] t) vsf exts stf,
      ¬ (r.source_type = d.source_type ∧ r.source_path = d.source_path))
    ∧ (∀ exts stf vsf, ∀ r ∈ sqlite_load_documents_metadata
        (sqlite_delete_documents_metadata tbl [d] t) exts stf vsf,
      ¬ (r.source_type = d.source_type ∧ r.source_path = d.source_path))
    ∧ json_delete_documents_metadata (json_delete_documents_metadata ms [d] t₁) [d] t₂
        = json_delete_documents_metadata ms [d] t₂
    ∧ sqlite_delete_documents_metadata
        (sqlite_delete_documents_metadata tbl [d] t₁) [d] t₂
        = sqlite_delete_documents_metadata tbl [d] t₂ := by
  refine ⟨?_, ?_, json_delete_absorb ms d t₁ t₂, ?_⟩
  · intro vsf exts stf r hr hcontra
    obtain ⟨e', he', hdel0, hrfrom⟩ := json_load_mem_inv _ vsf exts stf r hr
    obtain ⟨e, he, hkeq, hsteq, hspeq, himp⟩ := json_delete_mem_inv ms d t e' he'
    have hst : e'.2.source_type = d.source_type := by
      rw [← hsteq] at hsteq ⊢
      rw [hrfrom] at hcontra
      exact hcontra.1
    have hsp : e'.2.source_path = d.source_path := by
      rw [hrfrom] at hcontra
      exact hcontra.2
    have hkey : e.1 = make_key d := by
      rw [wf e he, ← hsteq, ← hspeq, hst, hsp]
      rfl
    have := himp hkey
    rw [this] at hdel0
    exact Nat.noConfusion hdel0
  · intro exts stf vsf r hr hcontra
    obtain ⟨row, hrow, hdel0, hsteq, hspeq⟩ := sqlite_load_mem_inv _ exts stf vsf r hr
    rw [sqlite_delete_singleton] at hrow
    rw [List.mem_map] at hrow
    obtain ⟨orig, horig, hroweq⟩ := hrow
    by_cases hm : rowMatchesKey orig d = true
    · rw [if_pos hm] at hroweq
      rw [← hroweq] at hdel0
      exact Nat.noConfusion hdel0
    · rw [if_neg hm] at hroweq
      apply hm
      simp only [rowMatchesKey, Bool.decide_and, Bool.and_eq_true, decide_eq_true_eq]
      rw [hroweq]
      rw [← hsteq, ← hspeq]
      exact ⟨hcontra.1, hcontra.2⟩
  · rw [sqlite_delete_singleton tbl d t₁, sqlite_delete_singleton _ d t₂,
        sqlite_delete_singleton tbl d t₂, List.map_map]
    apply List.map_congr_left
    intro row _
    by_cases hm : rowMatchesKey row d = true
    · have hm' : rowMatchesKey { row with is_deleted := 1, updated_at := t₁ } d = true := by
        simpa [rowMatchesKey] using hm
      simp only [Function.comp, hm, hm', if_pos]
    · simp only [Function.comp, if_neg hm]

/-- Witness for `soft_delete_excludes_and_absorbs`: a one-record JSON store,
whose key invariant holds by construction, deleted twice. -/
theorem soft_delete_excludes_and_absorbs_witness :
    (∀ e ∈ json_save_documents_metadata [] [mkDoc "/c/y.txt" "y.txt" ".txt" 2] 0,
      e.1 = e.2.source_type ++ ":" ++ e.2.source_path)
    ∧ json_delete_documents_metadata (json_delete_documents_metadata
        (json_save_documents_metadata [] [mkDoc "/c/y.txt" "y.txt" ".txt" 2] 0)
        [mkDoc "/c/y.txt" "y.txt" ".txt" 2] 1) [mkDoc "/c/y.txt" "y.txt" ".txt" 2] 2
      = json_delete_documents_metadata
        (json_save_documents_metadata [] [mkDoc "/c/y.txt" "y.txt" ".txt" 2] 0)
        [mkDoc "/c/y.txt" "y.txt" ".txt" 2] 2 :=
  ⟨by decide,
    (soft_delete_excludes_and_absorbs
      (json_save_documents_metadata [] [mkDoc "/c/y.txt" "y.txt" ".txt" 2] 0) []
      (mkDoc "/c/y.txt" "y.txt" ".txt" 2) 0 1 2 (by decide)).2.2.1⟩

/-- Claim C10: once the Chroma store is initialized, `document_exists` never
propagates an exception: it always returns a boolean, and when the
underlying similarity search raises it returns `False`.  Consequently the
orchestrator's delete-stale-vectors step is silently skipped rather than
failed: whenever the existence check answers `False`, the outcome of
`_process_single_document` does not depend on the delete-vectors
collaborator at all. -/
theorem document_exists_never_raises_when_initialized (cenv : ChromaEnv)
    (env : IngestEnv) (d₁ d₂ : String → VecState → Option String × VecState)
    (doc : DocumentMetadata) (ms : JsonState) (vs : VecState) (now : Int)
    (sp e : String) :
    (∃ b, chroma_document_exists cenv true sp = .ok b)
    ∧ (cenv.similarity_search "" 1 sp = .error e →
        chroma_document_exists cenv true sp = .ok false)
    ∧ (env.document_exists doc.source_path = .ok false →
        processSingleDocument { env with delete_vectors_by_source := d₁ } doc ms vs now
          = processSingleDocument { env with delete_vectors_by_source := d₂ } doc ms vs now) := by
  refine ⟨?_, ?_, ?_⟩
  · cases hs : cenv.similarity_search "" 1 sp with
    | ok results =>
      refine ⟨decide (results.length > 0), ?_⟩
      unfold chroma_document_exists
      simp [hs]
    | error err =>
      refine ⟨false, ?_⟩
      unfold chroma_document_exists
      simp [hs]
  · intro hs
    unfold chroma_document_exists
    simp [hs]
  · intro hex
    cases hpath : env.pathExists doc.source_path with
    | false =>
      unfold processSingleDocument
      simp [hpath]
    | true =>
      cases hp : getParser env.parsers doc with
      | none =>
        unfold processSingleDocument
        simp [hpath, hp]
      | some p =>
        cases hparse : env.parseDoc p doc with
        | error e' =>
          unfold processSingleDocument
          simp [hpath, hp, hparse]
        | ok content =>
          cases hchunk : (env.chunk_documents content).isEmpty with
          | true =>
            unfold processSingleDocument
            simp [hpath, hp, hparse, hchunk]
          | false =>
            unfold processSingleDocument
            simp [hpath, hp, hparse, hchunk, hex]

/-- Witness for `document_exists_never_raises_when_initialized`: a Chroma
environment whose similarity search always raises still answers
`.ok false`. -/
theorem document_exists_never_raises_witness :
    chroma_document_exists { similarity_search := fun _ _ _ => .error "boom" }
      true "/w/a.pdf" = .ok false :=
  (document_exists_never_raises_when_initialized
    { similarity_search := fun _ _ _ => .error "boom" } happyEnv
    (fun _ vs => (none, vs)) (fun _ vs => (some "x", vs))
    (mkDoc "/w/a.pdf" "a.pdf" ".pdf" 1) [] [] 0 "/w/a.pdf" "boom").2.1 rfl
